import Mathlib

/-!
Verification of the EMDR bilateral-stimulation metronome's motion/timing engine.

The definitions below are a shallow embedding of the canonical (most advanced)
copy of the state machine in `app.js`, together with the reverb worker in
`reverb-worker.js`.  JavaScript numbers are modelled as real numbers; the
JavaScript `%` operator (truncated remainder) is modelled by `jsRem`.
-/

open Real
open scoped Classical

attribute [instance] Classical.propDecidable

/-- Motion waveform selector: `settings.motionType` is the string `'sine'`;
any other value takes the triangle branch of the position computation. -/
inductive MotionType
  | sine
  | triangle
deriving DecidableEq

/-- The live-mutable settings the motion engine reads each tick. -/
structure Config where
  cyclesPerMinute : ℝ
  motionType : MotionType

/-- JavaScript remainder `x % y` (truncated division, sign of the dividend). -/
noncomputable def jsRem (x y : ℝ) : ℝ :=
  x - y * (if x / y < 0 then (⌈x / y⌉ : ℤ) else (⌊x / y⌋ : ℤ))

/-- Waveform period in milliseconds:
`cyclesPerSecond = cyclesPerMinute / 60; period = 1000 / cyclesPerSecond`. -/
noncomputable def period (cfg : Config) : ℝ :=
  1000 / (cfg.cyclesPerMinute / 60)

/-- `easeInOutCubic(t)` from `app.js`:
`t < 0.5 ? 4 * t * t * t : 1 - Math.pow(-2 * t + 2, 3) / 2`. -/
noncomputable def easeInOutCubic (t : ℝ) : ℝ :=
  if t < 0.5 then 4 * t * t * t else 1 - (-2 * t + 2) ^ 3 / 2

/-- The wave position derived from virtual time (lines 3179-3195 of the
canonical `calculateBallPosition`): sine branch `sin((vt/period)·π·2)`,
triangle branch piecewise linear on
`cycleProgress = ((vt % period) + period) % period / period`. -/
noncomputable def wavePos (cfg : Config) (virtualTime : ℝ) : ℝ :=
  match cfg.motionType with
  | MotionType.sine => Real.sin (virtualTime / period cfg * π * 2)
  | MotionType.triangle =>
      let cycleProgress := jsRem (jsRem virtualTime (period cfg) + period cfg) (period cfg) /
        period cfg
      if cycleProgress < 0.25 then cycleProgress * 4
      else if cycleProgress < 0.75 then 1 - (cycleProgress - 0.25) * 4
      else -1 + (cycleProgress - 0.75) * 4

/-- `getVelocityDirection()`: derivative sign of the waveform at the current
virtual time (cos of the phase for sine; ±1 on the triangle quarter-phases). -/
noncomputable def getVelocityDirection (cfg : Config) (virtualTime : ℝ) : ℝ :=
  match cfg.motionType with
  | MotionType.sine => Real.cos (virtualTime / period cfg * π * 2)
  | MotionType.triangle =>
      let cycleProgress := jsRem (jsRem virtualTime (period cfg) + period cfg) (period cfg) /
        period cfg
      if cycleProgress < 0.25 ∨ 0.75 ≤ cycleProgress then 1 else -1

/-- `RAMP_DURATION = 800` ms. -/
def RAMP_DURATION : ℝ := 800

/-- The mutable motion state of the engine (page-level globals in `app.js`).
`rampUp` models `rampDirection === 'up'` (the code only ever assigns `'up'`
or `null`); `rampStartTime` is meaningful only while `rampUp` is set. -/
structure MState where
  isPlaying : Bool
  speedMultiplier : ℝ
  lastTimestamp : Option ℝ
  virtualTime : ℝ
  rampUp : Bool
  rampStartTime : ℝ
  rampStartSpeed : ℝ
  isDecelerating : Bool
  decelStartPosition : ℝ
  waitingForEdge : Bool
  ballPosition : ℝ

/-- The initial global state: idle, speed 0, virtual time 0, ball centered. -/
def initState : MState :=
  { isPlaying := false
    speedMultiplier := 0
    lastTimestamp := none
    virtualTime := 0
    rampUp := false
    rampStartTime := 0
    rampStartSpeed := 0
    isDecelerating := false
    decelStartPosition := 0
    waitingForEdge := false
    ballPosition := 0 }

/-- One frame tick: `calculateBallPosition(timestamp)` from `app.js`
(lines 3118-3208).  Clamps the delta to 50 ms, runs the
waiting-for-edge / decelerating / ramping / steady branch, recomputes the
ball position from virtual time, and performs the zero-crossing reset. -/
noncomputable def calculateBallPosition (cfg : Config) (s : MState) (timestamp : ℝ) : MState :=
  let last := s.lastTimestamp.getD timestamp
  let deltaTime := min (timestamp - last) 50
  let prevPosition := s.ballPosition
  let s1 : MState :=
    if s.waitingForEdge then
      let vt := s.virtualTime + deltaTime * s.speedMultiplier
      let newPos := Real.sin (vt / period cfg * π * 2)
      if 0.99 ≤ |newPos| then
        { s with virtualTime := vt
                 waitingForEdge := false
                 isDecelerating := true
                 decelStartPosition := newPos }
      else
        { s with virtualTime := vt }
    else if s.isDecelerating then
      let startDistance := |s.decelStartPosition|
      let sm :=
        if 0.01 < startDistance then
          max 0.08 (Real.sqrt (|s.ballPosition| / startDistance))
        else 0
      { s with speedMultiplier := sm
               virtualTime := s.virtualTime + deltaTime * sm }
    else if s.rampUp then
      let rampProgress := min ((timestamp - s.rampStartTime) / RAMP_DURATION) 1
      let sm := s.rampStartSpeed + (1 - s.rampStartSpeed) * easeInOutCubic rampProgress
      { s with speedMultiplier := sm
               rampUp := if 1 ≤ rampProgress then false else true
               virtualTime := s.virtualTime + deltaTime * sm }
    else
      { s with virtualTime := s.virtualTime + deltaTime * s.speedMultiplier }
  let s2 : MState := { s1 with ballPosition := wavePos cfg s1.virtualTime }
  let s3 : MState :=
    if (s2.isDecelerating ∧
        ((0 < prevPosition ∧ s2.ballPosition ≤ 0) ∨ (prevPosition < 0 ∧ 0 ≤ s2.ballPosition)) :
        Prop) then
      { s2 with isDecelerating := false
                waitingForEdge := false
                rampUp := false
                virtualTime := 0
                speedMultiplier := 0
                ballPosition := 0 }
    else s2
  { s3 with lastTimestamp := some timestamp }

/-- `isHeadingTowardZero()`: position and analytic velocity have opposite signs. -/
noncomputable def isHeadingTowardZero (cfg : Config) (s : MState) : Prop :=
  (0 < s.ballPosition ∧ getVelocityDirection cfg s.virtualTime < 0) ∨
    (s.ballPosition < 0 ∧ 0 < getVelocityDirection cfg s.virtualTime)

/-- The play half of `togglePlayPause()` (pressed while not playing):
clears deceleration state and starts the speed ramp up. -/
def pressPlay (s : MState) (now : ℝ) : MState :=
  { s with isPlaying := true
           isDecelerating := false
           waitingForEdge := false
           rampUp := true
           rampStartTime := now
           rampStartSpeed := s.speedMultiplier }

/-- The pause half of `togglePlayPause()` (pressed while playing): decelerate
at once when heading toward zero, otherwise wait for the edge at full speed. -/
noncomputable def pressPause (cfg : Config) (s : MState) : MState :=
  if isHeadingTowardZero cfg s then
    { s with isPlaying := false
             isDecelerating := true
             decelStartPosition := s.ballPosition }
  else
    { s with isPlaying := false
             waitingForEdge := true
             rampUp := false
             speedMultiplier := 1 }

/-- One firing of the `setInterval` body installed by `startAudioLoop()`:
the delta is clamped to 100 ms and, when the tab is hidden while playing,
virtual time is advanced here since the frame ticker is throttled. -/
noncomputable def audioLoopStep (s : MState) (hidden : Bool) (now lastAudioTime : ℝ) : MState :=
  let dt := min (now - lastAudioTime) 100
  if hidden = true ∧ s.isPlaying = true ∧ 0 < s.speedMultiplier then
    { s with virtualTime := s.virtualTime + dt * s.speedMultiplier }
  else s

/-- Music playback bookkeeping (`musicSource`, `musicIsPlaying`,
`musicBuffer.duration`, `musicPausedAt`, `lastMusicUpdateTime`, and the
source's `playbackRate.value`). -/
structure MusicState where
  hasSource : Bool
  musicIsPlaying : Bool
  musicBufferDuration : Option ℝ
  musicPausedAt : ℝ
  lastMusicUpdateTime : ℝ
  playbackRate : ℝ

/-- `updateMusicPlaybackRate(rate)` from `app.js`: advances the tracked
buffer offset by the real delta times the rate in effect during that
interval, modulo the buffer duration, then installs the new rate.
`now` is `audioContext.currentTime`; JavaScript's falsy test on
`lastMusicUpdateTime` makes the first delta 0. -/
noncomputable def updateMusicPlaybackRate (m : MusicState) (rate : ℝ) (now : ℝ) : MusicState :=
  if m.hasSource = true ∧ m.musicIsPlaying = true ∧ m.musicBufferDuration.isSome then
    let duration := m.musicBufferDuration.getD 0
    let deltaTime := if m.lastMusicUpdateTime ≠ 0 then now - m.lastMusicUpdateTime else 0
    { m with lastMusicUpdateTime := now
             musicPausedAt := jsRem (m.musicPausedAt + deltaTime * m.playbackRate) duration
             playbackRate := rate }
  else m

/-- A full frame tick including the trailing
`updateMusicPlaybackRate(speedMultiplier)` call at the end of
`calculateBallPosition`. -/
noncomputable def tickWithMusic (cfg : Config) (s : MState) (m : MusicState)
    (timestamp audioNow : ℝ) : MState × MusicState :=
  let s1 := calculateBallPosition cfg s timestamp
  (s1, updateMusicPlaybackRate m s1.speedMultiplier audioNow)

/-- States reachable from the initial state by play presses, pause presses,
frame ticks and audio-interval ticks, with a nondecreasing clock.  The real
component records the time of the last event. -/
inductive Reach : MState → ℝ → Prop
  | init : Reach initState 0
  | play (s : MState) (t t' : ℝ) : Reach s t → s.isPlaying = false → t ≤ t' →
      Reach (pressPlay s t') t'
  | pause (cfg : Config) (s : MState) (t t' : ℝ) : Reach s t → s.isPlaying = true → t ≤ t' →
      Reach (pressPause cfg s) t'
  | tick (cfg : Config) (s : MState) (t t' : ℝ) : Reach s t → t ≤ t' →
      Reach (calculateBallPosition cfg s t') t'
  | audioTick (s : MState) (hidden : Bool) (t t' la : ℝ) : Reach s t → t ≤ t' →
      Reach (audioLoopStep s hidden t' la) t'

/-- A response message from the reverb worker:
`{ id, channels, length, sampleRate }`. -/
structure ReverbMsg where
  id : ℕ
  channel0 : List ℝ
  channel1 : List ℝ
  length : ℕ
  sampleRate : ℝ

/-- The impulse `AudioBuffer` built from a worker response
(`createBuffer(2, length, sampleRate)` plus two `copyToChannel` calls). -/
structure ImpulseBuffer where
  channel0 : List ℝ
  channel1 : List ℝ
  length : ℕ
  sampleRate : ℝ

/-- Main-thread audio state relevant to the reverb worker handler:
whether `audioContext` and `reverbConvolver` exist, the convolver's current
buffer, and the `reverbRequestId` counter. -/
structure ReverbMain where
  hasAudioContext : Bool
  hasConvolver : Bool
  convolverBuffer : Option ImpulseBuffer
  reverbRequestId : ℕ

/-- The `reverbWorker.onmessage` handler installed by `initReverbWorker()`:
destructures `{ channels, length, sampleRate }` (the response `id` is never
read), returns early if `audioContext` or `reverbConvolver` is missing, and
otherwise unconditionally installs the received impulse on the convolver. -/
def onReverbWorkerMessage (st : ReverbMain) (msg : ReverbMsg) : ReverbMain :=
  if st.hasAudioContext = true ∧ st.hasConvolver = true then
    { st with convolverBuffer := some ⟨msg.channel0, msg.channel1, msg.length, msg.sampleRate⟩ }
  else st

/-- A reverb preset from `reverb-worker.js` `PRESETS`. -/
structure Preset where
  durationMult : ℝ
  earlyDelay : ℝ
  diffusion : ℝ
  damping : ℝ

/-- The `room` preset (also the fallback for unrecognized types). -/
noncomputable def roomPreset : Preset := ⟨0.7, 0.01, 0.7, 0.3⟩

/-- `PRESETS[type] || PRESETS.room` from `reverb-worker.js`. -/
noncomputable def PRESETS (type : String) : Preset :=
  if type = "room" then roomPreset
  else if type = "hall" then ⟨1.2, 0.03, 0.85, 0.15⟩
  else if type = "plate" then ⟨0.9, 0.005, 0.95, 0.1⟩
  else if type = "cathedral" then ⟨1.5, 0.05, 0.9, 0.08⟩
  else roomPreset

/-- One sample of a reverb impulse channel (the body of the inner loop of
`generateImpulse`).  `noiseMain i` and `noiseEarly i` stand for the values of
the two `Math.random() * 2 - 1` draws at index `i`; `prev` is `data[i - 1]`. -/
noncomputable def reverbSample (p : Preset) (decay sampleRate stereoOffset : ℝ)
    (len : ℕ) (noiseMain noiseEarly : ℕ → ℝ) (prev : ℝ) (i : ℕ) : ℝ :=
  let t := (i : ℝ) / sampleRate
  let progress := (i : ℝ) * (1 / (len : ℝ))
  let envelope := Real.exp (-t * (1 / (decay * 0.5)))
  let dampingFactor := 1 - progress * p.damping
  let sample0 := noiseMain i
  let sample1 :=
    if t < p.earlyDelay * 3 then sample0 + noiseEarly i * (Real.exp (-t / p.earlyDelay) * 0.5)
    else sample0
  let sample2 :=
    if 0.5 < p.diffusion ∧ 0 < i then
      sample1 * (1 - p.diffusion * 0.3) + prev * (p.diffusion * 0.3)
    else sample1
  sample2 * envelope * dampingFactor * stereoOffset

/-- The first `n` samples of a reverb impulse channel, built like the worker's
inner loop (each sample may read its predecessor through the diffusion filter). -/
noncomputable def reverbChannel (p : Preset) (decay sampleRate stereoOffset : ℝ)
    (len : ℕ) (noiseMain noiseEarly : ℕ → ℝ) : ℕ → List ℝ
  | 0 => []
  | n + 1 =>
      let data := reverbChannel p decay sampleRate stereoOffset len noiseMain noiseEarly n
      data ++ [reverbSample p decay sampleRate stereoOffset len noiseMain noiseEarly
        (data.getLastD 0) n]

/-- The result shape of `generateImpulse` in the worker:
`{ channels, length, sampleRate }`. -/
structure GeneratedImpulse where
  channels : List (List ℝ)
  length : ℕ
  sampleRate : ℝ

/-- `generateImpulse(sampleRate, type, decay)` from `reverb-worker.js`:
duration is `min(durationMult * decay, 6)` seconds, the sample count is
`Math.floor(sampleRate * duration)`, and two channels are generated with
stereo offsets 1 and 0.97.  `noiseA`/`noiseB` supply the unseeded
`Math.random() * 2 - 1` draws per channel and index. -/
noncomputable def generateImpulse (sampleRate : ℝ) (type : String) (decay : ℝ)
    (noiseA noiseB : ℕ → ℕ → ℝ) : GeneratedImpulse :=
  let preset := PRESETS type
  let duration := min (preset.durationMult * decay) 6
  let len := (⌊sampleRate * duration⌋ : ℤ).toNat
  { channels :=
      [reverbChannel preset decay sampleRate 1 len (noiseA 0) (noiseB 0) len,
       reverbChannel preset decay sampleRate 0.97 len (noiseA 1) (noiseB 1) len]
    length := len
    sampleRate := sampleRate }

/-- The per-type `duration` field of the `presets` object inside
`createReverbImpulseFallback` in `app.js` (`decay * mult`, before the 6 s cap). -/
noncomputable def fallbackPresetDuration (type : String) (decay : ℝ) : ℝ :=
  if type = "room" then decay * 0.7
  else if type = "hall" then decay * 1.2
  else if type = "plate" then decay * 0.9
  else if type = "cathedral" then decay * 1.5
  else decay * 0.7

/-- The sample count of the impulse produced by the synchronous fallback
`createReverbImpulseFallback`: `Math.floor(sampleRate * min(preset.duration, 6))`. -/
noncomputable def fallbackImpulseLength (sampleRate : ℝ) (type : String) (decay : ℝ) : ℤ :=
  ⌊sampleRate * min (fallbackPresetDuration type decay) 6⌋

/-- Waveform config with 40 cycles per minute, sine motion (period 1500 ms). -/
noncomputable def sineCfg40 : Config := ⟨40, MotionType.sine⟩

/-- Waveform config with 400 cycles per minute, sine motion (period 150 ms). -/
noncomputable def fastSine : Config := ⟨400, MotionType.sine⟩

/-- Waveform config with 400 cycles per minute, triangle motion (period 150 ms). -/
noncomputable def fastTri : Config := ⟨400, MotionType.triangle⟩

lemma period_sineCfg40 : period sineCfg40 = 1500 := by
  simp [period, sineCfg40]; norm_num

lemma period_fastSine : period fastSine = 150 := by
  simp [period, fastSine]; norm_num

lemma period_fastTri : period fastTri = 150 := by
  simp [period, fastTri]; norm_num

lemma calc_steady (cfg : Config) (s : MState) (t dt : ℝ)
    (hw : s.waitingForEdge = false) (hd : s.isDecelerating = false)
    (hr : s.rampUp = false)
    (hdt : dt = min (t - s.lastTimestamp.getD t) 50) :
    calculateBallPosition cfg s t =
      { s with virtualTime := s.virtualTime + dt * s.speedMultiplier
               ballPosition := wavePos cfg (s.virtualTime + dt * s.speedMultiplier)
               lastTimestamp := some t } := by
  subst hdt
  unfold calculateBallPosition
  simp [hw, hd, hr]

lemma calc_waiting_noCapture (cfg : Config) (s : MState) (t dt vt' : ℝ)
    (hw : s.waitingForEdge = true) (hd : s.isDecelerating = false)
    (hdt : dt = min (t - s.lastTimestamp.getD t) 50)
    (hvt : vt' = s.virtualTime + dt * s.speedMultiplier)
    (h99 : |Real.sin (vt' / period cfg * π * 2)| < 0.99) :
    calculateBallPosition cfg s t =
      { s with virtualTime := vt'
               ballPosition := wavePos cfg vt'
               lastTimestamp := some t } := by
  subst hdt hvt
  unfold calculateBallPosition
  simp [hw, hd, not_le.mpr h99]

lemma calc_waiting_capture (cfg : Config) (s : MState) (t dt vt' : ℝ)
    (hw : s.waitingForEdge = true)
    (hdt : dt = min (t - s.lastTimestamp.getD t) 50)
    (hvt : vt' = s.virtualTime + dt * s.speedMultiplier)
    (h99 : 0.99 ≤ |Real.sin (vt' / period cfg * π * 2)|)
    (hnc : ¬((0 < s.ballPosition ∧ wavePos cfg vt' ≤ 0) ∨
             (s.ballPosition < 0 ∧ 0 ≤ wavePos cfg vt'))) :
    calculateBallPosition cfg s t =
      { s with virtualTime := vt'
               waitingForEdge := false
               isDecelerating := true
               decelStartPosition := Real.sin (vt' / period cfg * π * 2)
               ballPosition := wavePos cfg vt'
               lastTimestamp := some t } := by
  subst hdt hvt
  unfold calculateBallPosition
  simp [hw, h99, hnc]

lemma calc_decel (cfg : Config) (s : MState) (t dt sm' vt' : ℝ)
    (hw : s.waitingForEdge = false) (hd : s.isDecelerating = true)
    (hbig : 0.01 < |s.decelStartPosition|)
    (hdt : dt = min (t - s.lastTimestamp.getD t) 50)
    (hsm : sm' = max 0.08 (Real.sqrt (|s.ballPosition| / |s.decelStartPosition|)))
    (hvt : vt' = s.virtualTime + dt * sm')
    (hnc : ¬((0 < s.ballPosition ∧ wavePos cfg vt' ≤ 0) ∨
             (s.ballPosition < 0 ∧ 0 ≤ wavePos cfg vt'))) :
    calculateBallPosition cfg s t =
      { s with speedMultiplier := sm'
               virtualTime := vt'
               ballPosition := wavePos cfg vt'
               lastTimestamp := some t } := by
  subst hdt hsm hvt
  unfold calculateBallPosition
  simp [hw, hd, hbig, hnc, -Real.sqrt_div, -Real.sqrt_div']

lemma calc_decel_reset (cfg : Config) (s : MState) (t dt sm' vt' : ℝ)
    (hw : s.waitingForEdge = false) (hd : s.isDecelerating = true)
    (hbig : 0.01 < |s.decelStartPosition|)
    (hdt : dt = min (t - s.lastTimestamp.getD t) 50)
    (hsm : sm' = max 0.08 (Real.sqrt (|s.ballPosition| / |s.decelStartPosition|)))
    (hvt : vt' = s.virtualTime + dt * sm')
    (hc : (0 < s.ballPosition ∧ wavePos cfg vt' ≤ 0) ∨
          (s.ballPosition < 0 ∧ 0 ≤ wavePos cfg vt')) :
    calculateBallPosition cfg s t =
      { s with isDecelerating := false
               waitingForEdge := false
               rampUp := false
               virtualTime := 0
               speedMultiplier := 0
               ballPosition := 0
               lastTimestamp := some t } := by
  subst hdt hsm hvt
  unfold calculateBallPosition
  simp [hw, hd, hbig, hc, -Real.sqrt_div, -Real.sqrt_div']

lemma calc_decel_guard (cfg : Config) (s : MState) (t : ℝ)
    (hw : s.waitingForEdge = false) (hd : s.isDecelerating = true)
    (hsmall : ¬(0.01 < |s.decelStartPosition|))
    (hpos : s.ballPosition = wavePos cfg s.virtualTime) :
    calculateBallPosition cfg s t =
      { s with speedMultiplier := 0
               lastTimestamp := some t } := by
  have hnc : ¬((0 < s.ballPosition ∧ s.ballPosition ≤ 0) ∨
               (s.ballPosition < 0 ∧ 0 ≤ s.ballPosition)) := by
    rintro (⟨a, b⟩ | ⟨a, b⟩) <;> linarith
  unfold calculateBallPosition
  simp [hw, hd, hsmall, ← hpos, hnc, -Real.sqrt_div, -Real.sqrt_div']

lemma calc_ramp (cfg : Config) (s : MState) (t dt p' sm' vt' : ℝ)
    (hw : s.waitingForEdge = false) (hd : s.isDecelerating = false)
    (hr : s.rampUp = true)
    (hdt : dt = min (t - s.lastTimestamp.getD t) 50)
    (hp : p' = min ((t - s.rampStartTime) / RAMP_DURATION) 1)
    (hsm : sm' = s.rampStartSpeed + (1 - s.rampStartSpeed) * easeInOutCubic p')
    (hvt : vt' = s.virtualTime + dt * sm') :
    calculateBallPosition cfg s t =
      { s with speedMultiplier := sm'
               rampUp := if 1 ≤ p' then false else true
               virtualTime := vt'
               ballPosition := wavePos cfg vt'
               lastTimestamp := some t } := by
  subst hdt hp hsm hvt
  unfold calculateBallPosition
  simp [hw, hd, hr]

lemma cube_le_cube {a b : ℝ} (h : a ≤ b) : a ^ 3 ≤ b ^ 3 := by
  nlinarith [sq_nonneg (a + b), sq_nonneg (a - b), sq_nonneg a, sq_nonneg b]

lemma easeInOutCubic_monotone {a b : ℝ} (h : a ≤ b) :
    easeInOutCubic a ≤ easeInOutCubic b := by
  unfold easeInOutCubic
  split_ifs with ha hb hb
  · nlinarith [sq_nonneg (a + b), sq_nonneg (a - b), sq_nonneg a, sq_nonneg b]
  · have h1 : a ^ 3 ≤ (1 / 2 : ℝ) ^ 3 := cube_le_cube (by norm_num at ha ⊢; linarith)
    have h2 : (-2 * b + 2) ^ 3 ≤ 1 ^ 3 := cube_le_cube (by norm_num at hb ⊢; linarith)
    nlinarith
  · norm_num at ha hb; linarith
  · have h2 : (-2 * b + 2) ^ 3 ≤ (-2 * a + 2) ^ 3 := cube_le_cube (by linarith)
    linarith

lemma easeInOutCubic_nonneg {t : ℝ} (h0 : 0 ≤ t) : 0 ≤ easeInOutCubic t := by
  unfold easeInOutCubic
  split_ifs with ht
  · nlinarith [mul_nonneg (mul_nonneg h0 h0) h0]
  · have h2 : (-2 * t + 2) ^ 3 ≤ 1 ^ 3 := cube_le_cube (by norm_num at ht ⊢; linarith)
    nlinarith

lemma easeInOutCubic_le_one {t : ℝ} (h1 : t ≤ 1) : easeInOutCubic t ≤ 1 := by
  unfold easeInOutCubic
  split_ifs with ht
  · have h2 : t ^ 3 ≤ (1 / 2 : ℝ) ^ 3 := cube_le_cube (by norm_num at ht ⊢; linarith)
    nlinarith
  · have h2 : (0 : ℝ) ≤ (-2 * t + 2) ^ 3 := pow_nonneg (by linarith) 3
    linarith

lemma easeInOutCubic_one : easeInOutCubic 1 = 1 := by
  unfold easeInOutCubic
  norm_num

lemma jsRem_of_nonneg_of_lt {x y : ℝ} (h0 : 0 ≤ x) (hxy : x < y) : jsRem x y = x := by
  have hy : 0 < y := lt_of_le_of_lt h0 hxy
  have hq0 : 0 ≤ x / y := div_nonneg h0 hy.le
  have hq1 : x / y < 1 := (div_lt_one hy).mpr hxy
  unfold jsRem
  rw [if_neg (not_lt.mpr hq0)]
  have : ⌊x / y⌋ = 0 := Int.floor_eq_zero_iff.mpr ⟨hq0, hq1⟩
  rw [this]
  simp

lemma jsRem_of_ge_of_lt {x y : ℝ} (hy : 0 < y) (h0 : y ≤ x) (hxy : x < 2 * y) :
    jsRem x y = x - y := by
  have hq0 : (1 : ℝ) ≤ x / y := (le_div_iff₀ hy).mpr (by linarith)
  have hq1 : x / y < 2 := (div_lt_iff₀ hy).mpr (by linarith)
  unfold jsRem
  rw [if_neg (by push_neg; linarith)]
  have : ⌊x / y⌋ = 1 := by
    apply Int.floor_eq_iff.mpr
    push_cast
    constructor <;> linarith
  rw [this]
  push_cast
  ring

lemma jsRem_nonneg_lt {x y : ℝ} (hy : 0 < y) (h0 : 0 ≤ x) :
    0 ≤ jsRem x y ∧ jsRem x y < y := by
  have hq0 : 0 ≤ x / y := div_nonneg h0 hy.le
  unfold jsRem
  rw [if_neg (not_lt.mpr hq0)]
  have hfl : (⌊x / y⌋ : ℝ) ≤ x / y := Int.floor_le _
  have hfu : x / y < ⌊x / y⌋ + 1 := Int.lt_floor_add_one _
  constructor
  · have : (⌊x / y⌋ : ℝ) * y ≤ x / y * y := by
      exact mul_le_mul_of_nonneg_right hfl hy.le
    rw [div_mul_cancel₀] at this
    · linarith [mul_comm (⌊x / y⌋ : ℝ) y]
    · exact hy.ne'
  · have : x / y * y < ((⌊x / y⌋ : ℝ) + 1) * y := by
      exact mul_lt_mul_of_pos_right hfu hy
    rw [div_mul_cancel₀] at this
    · nlinarith
    · exact hy.ne'

lemma sin_phase1500_pos {vt : ℝ} (h0 : 0 < vt) (h1 : vt < 750) :
    0 < Real.sin (vt / 1500 * π * 2) := by
  have hp : 0 < π / 750 := by positivity
  have hx : vt / 1500 * π * 2 = vt * (π / 750) := by ring
  rw [hx]
  refine Real.sin_pos_of_pos_of_lt_pi (mul_pos h0 hp) ?_
  have h2 : vt * (π / 750) < 750 * (π / 750) := mul_lt_mul_of_pos_right h1 hp
  have h3 : (750 : ℝ) * (π / 750) = π := by ring
  linarith

lemma sin_phase1500_nonpos {vt : ℝ} (h0 : 750 ≤ vt) (h1 : vt ≤ 1500) :
    Real.sin (vt / 1500 * π * 2) ≤ 0 := by
  have hx : vt / 1500 * π * 2 = vt * (π / 750) - π + π := by ring
  rw [hx, Real.sin_add_pi]
  have hp : 0 ≤ π / 750 := by positivity
  have h2 : (750 : ℝ) * (π / 750) ≤ vt * (π / 750) := mul_le_mul_of_nonneg_right h0 hp
  have h3 : vt * (π / 750) ≤ 1500 * (π / 750) := mul_le_mul_of_nonneg_right h1 hp
  have h4 : (750 : ℝ) * (π / 750) = π := by ring
  have h5 : (1500 : ℝ) * (π / 750) = 2 * π := by ring
  have h6 : 0 ≤ Real.sin (vt * (π / 750) - π) := by
    refine Real.sin_nonneg_of_nonneg_of_le_pi (by linarith) (by linarith)
  linarith

lemma sin_phase150_pos {vt : ℝ} (h0 : 0 < vt) (h1 : vt < 75) :
    0 < Real.sin (vt / 150 * π * 2) := by
  have hp : 0 < π / 75 := by positivity
  have hx : vt / 150 * π * 2 = vt * (π / 75) := by ring
  rw [hx]
  refine Real.sin_pos_of_pos_of_lt_pi (mul_pos h0 hp) ?_
  have h2 : vt * (π / 75) < 75 * (π / 75) := mul_lt_mul_of_pos_right h1 hp
  have h3 : (75 : ℝ) * (π / 75) = π := by ring
  linarith

lemma cos_tenth_bounds : (0.99 : ℝ) ≤ Real.cos (1 / 10) ∧ Real.cos (1 / 10) < 1 := by
  have habs : |(1 / 10 : ℝ)| ≤ 1 := by rw [abs_of_nonneg] <;> norm_num
  have hb := Real.cos_bound habs
  rw [abs_of_nonneg (by norm_num : (0 : ℝ) ≤ 1 / 10)] at hb
  have hb1 := (abs_le.mp hb).1
  have hb2 := (abs_le.mp hb).2
  constructor <;> nlinarith

lemma abs_sin_lt_99 {x : ℝ} (h0 : 0 ≤ x) (h1 : x ≤ 113 * π / 250) :
    |Real.sin x| < 0.99 := by
  have hpi1 : 3.1415 < π := Real.pi_gt_d4
  have hpi2 : π < 3.1416 := Real.pi_lt_d4
  have hx2 : x ≤ π / 2 := by nlinarith
  have hs0 : 0 ≤ Real.sin x := Real.sin_nonneg_of_nonneg_of_le_pi h0 (by nlinarith)
  rw [abs_of_nonneg hs0]
  have hmono : Real.sin x ≤ Real.sin (113 * π / 250) := by
    rcases eq_or_lt_of_le h1 with h | h
    · rw [h]
    · refine le_of_lt (Real.strictMonoOn_sin ⟨by nlinarith, hx2⟩ ⟨by nlinarith, by nlinarith⟩ h)
  have heq : Real.sin (113 * π / 250) = Real.cos (6 * π / 125) := by
    rw [show (113 * π / 250 : ℝ) = π / 2 - 6 * π / 125 by ring, Real.sin_pi_div_two_sub]
  have habs : |6 * π / 125| ≤ 1 := by
    rw [abs_of_nonneg (by positivity)]
    nlinarith
  have hb := Real.cos_bound habs
  rw [abs_of_nonneg (by positivity : (0 : ℝ) ≤ 6 * π / 125)] at hb
  have hb2 := (abs_le.mp hb).2
  have hsq : 3.1415 ^ 2 < π ^ 2 := by nlinarith
  have hsq2 : π ^ 2 < 3.1416 ^ 2 := by nlinarith
  have hpos : (0 : ℝ) < 3.1416 ^ 2 + π ^ 2 := by positivity
  have hq : π ^ 4 < 3.1416 ^ 4 := by nlinarith [mul_pos (sub_pos.mpr hsq2) hpos]
  have hlt : Real.cos (6 * π / 125) < 0.99 := by nlinarith
  linarith [heq ▸ hmono]

lemma cos_3pi100_ge : (0.99 : ℝ) ≤ Real.cos (3 * π / 100) := by
  have hpi1 : 3.1415 < π := Real.pi_gt_d4
  have hpi2 : π < 3.1416 := Real.pi_lt_d4
  have habs : |3 * π / 100| ≤ 1 := by
    rw [abs_of_nonneg (by positivity)]
    nlinarith
  have hb := Real.cos_bound habs
  rw [abs_of_nonneg (by positivity : (0 : ℝ) ≤ 3 * π / 100)] at hb
  have hb1 := (abs_le.mp hb).1
  have hsq : π ^ 2 < 3.1416 ^ 2 := by nlinarith
  have hpos : (0 : ℝ) < 3.1416 ^ 2 + π ^ 2 := by positivity
  have hq : π ^ 4 < 3.1416 ^ 4 := by nlinarith [mul_pos (sub_pos.mpr hsq) hpos]
  nlinarith

lemma wavePos_sineCfg40 (vt : ℝ) :
    wavePos sineCfg40 vt = Real.sin (vt / 1500 * π * 2) := by
  show Real.sin (vt / period sineCfg40 * π * 2) = _
  rw [period_sineCfg40]

lemma wavePos_fastSine (vt : ℝ) :
    wavePos fastSine vt = Real.sin (vt / 150 * π * 2) := by
  show Real.sin (vt / period fastSine * π * 2) = _
  rw [period_fastSine]

/-- The Decelerating start state of the zero-crossing completion scenario:
`decelStartPosition = 0.5`, ball at `+0.5` (virtual time 125 ms of the
1500 ms sine period), deceleration already in progress. -/
noncomputable def decelStart : MState :=
  { isPlaying := false
    speedMultiplier := 1
    lastTimestamp := some 0
    virtualTime := 125
    rampUp := false
    rampStartTime := 0
    rampStartSpeed := 0
    isDecelerating := true
    decelStartPosition := 0.5
    waitingForEdge := false
    ballPosition := 0.5 }

/-- The deceleration scenario: tick `decelStart` every 16 ms
(40 cycles/minute sine wave). -/
noncomputable def decelSeq : ℕ → MState
  | 0 => decelStart
  | n + 1 => calculateBallPosition sineCfg40 (decelSeq n) (16 * ((n : ℝ) + 1))

/-- The deceleration episode is still running at step `n`. -/
noncomputable def inFlight (n : ℕ) : Prop :=
  (decelSeq n).isDecelerating = true ∧ (decelSeq n).waitingForEdge = false ∧
    (decelSeq n).rampUp = false ∧ (decelSeq n).decelStartPosition = 0.5 ∧
    (decelSeq n).lastTimestamp = some (16 * (n : ℝ)) ∧
    125 + 1.28 * (n : ℝ) ≤ (decelSeq n).virtualTime ∧ (decelSeq n).virtualTime < 750 ∧
    (decelSeq n).ballPosition = Real.sin ((decelSeq n).virtualTime / 1500 * π * 2)

/-- The deceleration episode has ended in the Idle rest state at step `n`. -/
noncomputable def decelDone (n : ℕ) : Prop :=
  (decelSeq n).isDecelerating = false ∧ (decelSeq n).waitingForEdge = false ∧
    (decelSeq n).rampUp = false ∧ (decelSeq n).virtualTime = 0 ∧
    (decelSeq n).speedMultiplier = 0 ∧ (decelSeq n).ballPosition = 0

lemma inFlight_zero : inFlight 0 := by
  unfold inFlight decelSeq decelStart
  refine ⟨rfl, rfl, rfl, rfl, by norm_num, by norm_num, by norm_num, ?_⟩
  show (0.5 : ℝ) = Real.sin (125 / 1500 * π * 2)
  rw [show (125 : ℝ) / 1500 * π * 2 = π / 6 by ring, Real.sin_pi_div_six]
  norm_num

lemma inFlight_step {n : ℕ} (h : inFlight n) :
    inFlight (n + 1) ∨ (inFlight n ∧ decelDone (n + 1)) := by
  obtain ⟨hd, hw, hr, hdsp, hL, hlb, hub, hpos⟩ := h
  have hvtpos : (0 : ℝ) < (decelSeq n).virtualTime := by
    have : (0 : ℝ) ≤ (n : ℝ) := Nat.cast_nonneg n
    nlinarith
  have hppos : 0 < (decelSeq n).ballPosition := by
    rw [hpos]; exact sin_phase1500_pos hvtpos hub
  have hple : (decelSeq n).ballPosition ≤ 1 := by
    rw [hpos]; exact Real.sin_le_one _
  have hdt : (16 : ℝ) = min ((16 * ((n : ℝ) + 1)) - (decelSeq n).lastTimestamp.getD
      (16 * ((n : ℝ) + 1))) 50 := by
    rw [hL]
    simp only [Option.getD_some]
    rw [show (16 * ((n : ℝ) + 1)) - 16 * (n : ℝ) = 16 by ring]
    norm_num
  set sm' : ℝ := max 0.08 (Real.sqrt (|(decelSeq n).ballPosition| /
    |(decelSeq n).decelStartPosition|)) with hsm
  have habs : |(decelSeq n).ballPosition| / |(decelSeq n).decelStartPosition| =
      (decelSeq n).ballPosition / 0.5 := by
    rw [hdsp, abs_of_pos hppos, abs_of_pos (by norm_num : (0.5 : ℝ) > 0)]
  have hsm_lb : 0.08 ≤ sm' := le_max_left _ _
  have hsm_ub : sm' ≤ 1.5 := by
    rw [hsm, habs]
    have hdiv : (decelSeq n).ballPosition / 0.5 = 2 * (decelSeq n).ballPosition := by ring
    refine max_le (by norm_num) (Real.sqrt_le_iff.mpr ⟨by norm_num, ?_⟩)
    rw [hdiv]
    nlinarith
  have hbig : (0.01 : ℝ) < |(decelSeq n).decelStartPosition| := by
    rw [hdsp, abs_of_pos (by norm_num : (0.5 : ℝ) > 0)]; norm_num
  set vt' : ℝ := (decelSeq n).virtualTime + 16 * sm' with hvt
  have hvt_lb : (decelSeq n).virtualTime + 1.28 ≤ vt' := by
    rw [hvt]; nlinarith
  have hvt_ub : vt' ≤ (decelSeq n).virtualTime + 24 := by
    rw [hvt]; nlinarith
  by_cases hcross : vt' < 750
  · left
    have hnewpos : 0 < wavePos sineCfg40 vt' := by
      rw [wavePos_sineCfg40]
      exact sin_phase1500_pos (by nlinarith) hcross
    have hnc : ¬((0 < (decelSeq n).ballPosition ∧ wavePos sineCfg40 vt' ≤ 0) ∨
        ((decelSeq n).ballPosition < 0 ∧ 0 ≤ wavePos sineCfg40 vt')) := by
      rintro (⟨-, h2⟩ | ⟨h1, -⟩) <;> linarith
    have hstep : decelSeq (n + 1) =
        { decelSeq n with speedMultiplier := sm'
                          virtualTime := vt'
                          ballPosition := wavePos sineCfg40 vt'
                          lastTimestamp := some (16 * ((n : ℝ) + 1)) } := by
      show calculateBallPosition sineCfg40 (decelSeq n) (16 * ((n : ℝ) + 1)) = _
      exact calc_decel sineCfg40 (decelSeq n) _ 16 sm' vt' hw hd hbig hdt hsm hvt hnc
    unfold inFlight
    rw [hstep]
    push_cast
    exact ⟨hd, hw, hr, hdsp, rfl, by linarith [hvt_lb], hcross, wavePos_sineCfg40 vt'⟩
  · right
    push_neg at hcross
    have hnewneg : wavePos sineCfg40 vt' ≤ 0 := by
      rw [wavePos_sineCfg40]
      exact sin_phase1500_nonpos hcross (by nlinarith)
    have hc : (0 < (decelSeq n).ballPosition ∧ wavePos sineCfg40 vt' ≤ 0) ∨
        ((decelSeq n).ballPosition < 0 ∧ 0 ≤ wavePos sineCfg40 vt') :=
      Or.inl ⟨hppos, hnewneg⟩
    have hstep : decelSeq (n + 1) =
        { decelSeq n with isDecelerating := false
                          waitingForEdge := false
                          rampUp := false
                          virtualTime := 0
                          speedMultiplier := 0
                          ballPosition := 0
                          lastTimestamp := some (16 * ((n : ℝ) + 1)) } := by
      show calculateBallPosition sineCfg40 (decelSeq n) (16 * ((n : ℝ) + 1)) = _
      exact calc_decel_reset sineCfg40 (decelSeq n) _ 16 sm' vt' hw hd hbig hdt hsm hvt hc
    refine ⟨⟨hd, hw, hr, hdsp, hL, hlb, hub, hpos⟩, ?_⟩
    unfold decelDone
    rw [hstep]
    exact ⟨rfl, rfl, rfl, rfl, rfl, rfl⟩

lemma decel_progress (n : ℕ) :
    inFlight n ∨ ∃ m, 1 ≤ m ∧ m ≤ n ∧ inFlight (m - 1) ∧ decelDone m := by
  induction n with
  | zero => exact Or.inl inFlight_zero
  | succ k ih =>
      rcases ih with hf | ⟨m, h1, h2, h3, h4⟩
      · rcases inFlight_step hf with h | ⟨h', hdone⟩
        · exact Or.inl h
        · exact Or.inr ⟨k + 1, by omega, le_refl _, by simpa using h', hdone⟩
      · exact Or.inr ⟨m, h1, by omega, h3, h4⟩

/-- C1: starting in Decelerating with `decelStartPosition = 0.5` (position 0.5,
sine motion, 40 cycles per minute) and ticking every 16 ms, the episode ends
within 500 ticks, atomically on a single tick: the previous state is still
Decelerating, and the tick of the zero crossing clears the Decelerating,
WaitingForEdge and ramp flags and sets `virtualTime = 0`,
`speedMultiplier = 0`, `position = 0` (Idle). -/
theorem decel_completes_within_500_ticks :
    ∃ m : ℕ, 1 ≤ m ∧ m ≤ 500 ∧ (decelSeq (m - 1)).isDecelerating = true ∧
      (decelSeq m).isDecelerating = false ∧ (decelSeq m).waitingForEdge = false ∧
      (decelSeq m).rampUp = false ∧ (decelSeq m).virtualTime = 0 ∧
      (decelSeq m).speedMultiplier = 0 ∧ (decelSeq m).ballPosition = 0 := by
  rcases decel_progress 489 with h | ⟨m, h1, h2, hf, hdone⟩
  · exfalso
    obtain ⟨-, -, -, -, -, hlb, hub, -⟩ := h
    norm_num at hlb
    linarith
  · exact ⟨m, h1, by omega, hf.1, hdone.1, hdone.2.1, hdone.2.2.1, hdone.2.2.2.1,
      hdone.2.2.2.2.1, hdone.2.2.2.2.2⟩

/-- C8: for every `virtualTime ≥ 0`, every `cyclesPerMinute > 0` and both
motion types, the derived position lies in `[-1, 1]`. -/
theorem position_in_unit_interval (cfg : Config) (vt : ℝ)
    (h0 : 0 ≤ vt) (hcpm : 0 < cfg.cyclesPerMinute) :
    -1 ≤ wavePos cfg vt ∧ wavePos cfg vt ≤ 1 := by
  have hper : 0 < period cfg := by
    unfold period
    positivity
  obtain ⟨cpm, mt⟩ := cfg
  cases mt with
  | sine =>
      simp only [wavePos]
      exact ⟨Real.neg_one_le_sin _, Real.sin_le_one _⟩
  | triangle =>
      simp only [wavePos]
      have h1 := jsRem_nonneg_lt hper h0
      have h2 : jsRem (jsRem vt (period ⟨cpm, MotionType.triangle⟩) +
          period ⟨cpm, MotionType.triangle⟩) (period ⟨cpm, MotionType.triangle⟩) =
          jsRem vt (period ⟨cpm, MotionType.triangle⟩) :=
        (jsRem_of_ge_of_lt hper (by linarith [h1.1]) (by linarith [h1.2])).trans (by ring)
      rw [h2]
      have hcp0 : 0 ≤ jsRem vt (period ⟨cpm, MotionType.triangle⟩) /
          period ⟨cpm, MotionType.triangle⟩ := div_nonneg h1.1 hper.le
      have hcp1 : jsRem vt (period ⟨cpm, MotionType.triangle⟩) /
          period ⟨cpm, MotionType.triangle⟩ < 1 := (div_lt_one hper).mpr h1.2
      split_ifs with ha hb
      · constructor <;> norm_num at ha ⊢ <;> linarith
      · constructor <;> norm_num at ha hb ⊢ <;> linarith
      · constructor <;> norm_num at ha hb ⊢ <;> linarith

/-- C8 witness: the bound instantiated at virtual time 0 with the
40 cycles/minute sine config. -/
theorem position_in_unit_interval_witness :
    -1 ≤ wavePos sineCfg40 0 ∧ wavePos sineCfg40 0 ≤ 1 :=
  position_in_unit_interval sineCfg40 0 le_rfl (by norm_num [sineCfg40])

/-- C4 (amended): on a Decelerating tick with `|decelStartPosition| ≤ 0.01`
the ratio division is skipped and `speedMultiplier` is set to 0, but the
engine stays in Decelerating with virtual time and position frozen (it does
not finish or reach Idle); otherwise `speedMultiplier` is set to
`max(0.08, sqrt(|position| / |decelStartPosition|))` (unless that very tick
crosses zero, which resets speed and virtual time to 0). -/
theorem decel_guard_division (cfg : Config) (s : MState) (t : ℝ)
    (hw : s.waitingForEdge = false) (hd : s.isDecelerating = true)
    (hpos : s.ballPosition = wavePos cfg s.virtualTime) :
    (|s.decelStartPosition| ≤ 0.01 →
      calculateBallPosition cfg s t =
        { s with speedMultiplier := 0, lastTimestamp := some t }) ∧
    (0.01 < |s.decelStartPosition| →
      (calculateBallPosition cfg s t).speedMultiplier =
        max 0.08 (Real.sqrt (|s.ballPosition| / |s.decelStartPosition|)) ∨
      ((calculateBallPosition cfg s t).speedMultiplier = 0 ∧
        (calculateBallPosition cfg s t).virtualTime = 0)) := by
  constructor
  · intro hsmall
    exact calc_decel_guard cfg s t hw hd (not_lt.mpr hsmall) hpos
  · intro hbig
    by_cases hc : (0 < s.ballPosition ∧
        wavePos cfg (s.virtualTime + min (t - s.lastTimestamp.getD t) 50 *
          max 0.08 (Real.sqrt (|s.ballPosition| / |s.decelStartPosition|))) ≤ 0) ∨
        (s.ballPosition < 0 ∧
          0 ≤ wavePos cfg (s.virtualTime + min (t - s.lastTimestamp.getD t) 50 *
            max 0.08 (Real.sqrt (|s.ballPosition| / |s.decelStartPosition|))))
    · right
      rw [calc_decel_reset cfg s t _ _ _ hw hd hbig rfl rfl rfl hc]
      exact ⟨rfl, rfl⟩
    · left
      rw [calc_decel cfg s t _ _ _ hw hd hbig rfl rfl rfl hc]

/-- A Decelerating state whose captured `decelStartPosition` magnitude is
below the 0.01 divide-by-zero guard while the ball sits at +0.5. -/
noncomputable def guardState : MState :=
  { isPlaying := false
    speedMultiplier := 0.08
    lastTimestamp := some 0
    virtualTime := 125
    rampUp := false
    rampStartTime := 0
    rampStartSpeed := 0
    isDecelerating := true
    decelStartPosition := 0.005
    waitingForEdge := false
    ballPosition := wavePos sineCfg40 125 }

/-- C4 witness: on `guardState` the guarded tick freezes the state with
`speedMultiplier = 0`. -/
theorem decel_guard_division_witness :
    calculateBallPosition sineCfg40 guardState 16 =
      { guardState with speedMultiplier := 0, lastTimestamp := some 16 } :=
  (decel_guard_division sineCfg40 guardState 16 rfl rfl rfl).1
    (by rw [show guardState.decelStartPosition = 0.005 from rfl, abs_of_pos] <;> norm_num)

/-- C4 counterexample: with `decelStartPosition = 0.005 ≤ 0.01` the
deceleration does not finish and the machine does not reach Idle: after the
tick it is still Decelerating, with virtual time still 125 and the ball
still at 0.5. -/
theorem decel_guard_division_counterexample :
    (calculateBallPosition sineCfg40 guardState 16).isDecelerating = true ∧
    (calculateBallPosition sineCfg40 guardState 16).virtualTime = 125 ∧
    (calculateBallPosition sineCfg40 guardState 16).ballPosition = 1 / 2 := by
  have h := calc_decel_guard sineCfg40 guardState 16 rfl rfl
    (by rw [show guardState.decelStartPosition = 0.005 from rfl, abs_of_pos] <;> norm_num) rfl
  rw [h]
  refine ⟨rfl, rfl, ?_⟩
  show wavePos sineCfg40 125 = 1 / 2
  rw [wavePos_sineCfg40, show (125 : ℝ) / 1500 * π * 2 = π / 6 by ring,
    Real.sin_pi_div_six]

/-- C5: during RampingUp started from `speedMultiplier = 0`, the speed
multiplier after a later tick is at least the one after an earlier tick
(cubic ease-in-out is monotone), and any tick at least `RAMP_DURATION`
(800 ms) after the ramp start yields exactly `speedMultiplier = 1` and
clears the ramp flag (Steady). -/
theorem rampUp_monotone_and_completes (cfg : Config) (s : MState)
    (hw : s.waitingForEdge = false) (hd : s.isDecelerating = false)
    (hr : s.rampUp = true) (h0 : s.rampStartSpeed = 0) :
    (∀ t1 t2 : ℝ, t1 ≤ t2 →
      (calculateBallPosition cfg s t1).speedMultiplier ≤
        (calculateBallPosition cfg (calculateBallPosition cfg s t1) t2).speedMultiplier) ∧
    (∀ t : ℝ, RAMP_DURATION ≤ t - s.rampStartTime →
      (calculateBallPosition cfg s t).speedMultiplier = 1 ∧
      (calculateBallPosition cfg s t).rampUp = false) := by
  have key : ∀ t : ℝ, calculateBallPosition cfg s t =
      { s with speedMultiplier := s.rampStartSpeed + (1 - s.rampStartSpeed) *
                 easeInOutCubic (min ((t - s.rampStartTime) / RAMP_DURATION) 1)
               rampUp := if 1 ≤ min ((t - s.rampStartTime) / RAMP_DURATION) 1 then false
                 else true
               virtualTime := s.virtualTime + min (t - s.lastTimestamp.getD t) 50 *
                 (s.rampStartSpeed + (1 - s.rampStartSpeed) *
                   easeInOutCubic (min ((t - s.rampStartTime) / RAMP_DURATION) 1))
               ballPosition := wavePos cfg (s.virtualTime + min (t - s.lastTimestamp.getD t) 50 *
                 (s.rampStartSpeed + (1 - s.rampStartSpeed) *
                   easeInOutCubic (min ((t - s.rampStartTime) / RAMP_DURATION) 1)))
               lastTimestamp := some t } := fun t =>
    calc_ramp cfg s t _ _ _ _ hw hd hr rfl rfl rfl rfl
  constructor
  · intro t1 t2 hle
    rw [key t1]
    by_cases hdone : 1 ≤ min ((t1 - s.rampStartTime) / RAMP_DURATION) 1
    · rw [calc_steady cfg _ t2 _ (by simp [hw]) (by simp [hd]) (by simp [hdone]) rfl]
    · have hr2 := calc_ramp cfg
        ({ s with speedMultiplier := s.rampStartSpeed + (1 - s.rampStartSpeed) *
                    easeInOutCubic (min ((t1 - s.rampStartTime) / RAMP_DURATION) 1)
                  rampUp := if 1 ≤ min ((t1 - s.rampStartTime) / RAMP_DURATION) 1 then false
                    else true
                  virtualTime := s.virtualTime + min (t1 - s.lastTimestamp.getD t1) 50 *
                    (s.rampStartSpeed + (1 - s.rampStartSpeed) *
                      easeInOutCubic (min ((t1 - s.rampStartTime) / RAMP_DURATION) 1))
                  ballPosition := wavePos cfg (s.virtualTime +
                    min (t1 - s.lastTimestamp.getD t1) 50 *
                    (s.rampStartSpeed + (1 - s.rampStartSpeed) *
                      easeInOutCubic (min ((t1 - s.rampStartTime) / RAMP_DURATION) 1)))
                  lastTimestamp := some t1 })
        t2 _ _ _ _ (by simp [hw]) (by simp [hd]) (by simp [hdone]) rfl rfl rfl rfl
      rw [hr2]
      show s.rampStartSpeed + (1 - s.rampStartSpeed) *
          easeInOutCubic (min ((t1 - s.rampStartTime) / RAMP_DURATION) 1) ≤
        s.rampStartSpeed + (1 - s.rampStartSpeed) *
          easeInOutCubic (min ((t2 - s.rampStartTime) / RAMP_DURATION) 1)
      rw [h0]
      have hmin : min ((t1 - s.rampStartTime) / RAMP_DURATION) 1 ≤
          min ((t2 - s.rampStartTime) / RAMP_DURATION) 1 := by
        refine min_le_min ?_ le_rfl
        rw [div_eq_mul_inv, div_eq_mul_inv]
        exact mul_le_mul_of_nonneg_right (by linarith) (by norm_num [RAMP_DURATION])
      have := easeInOutCubic_monotone hmin
      linarith
  · intro t ht
    rw [key t]
    have hp1 : min ((t - s.rampStartTime) / RAMP_DURATION) 1 = 1 := by
      refine min_eq_right ?_
      rw [le_div_iff₀ (by norm_num [RAMP_DURATION] : (0 : ℝ) < RAMP_DURATION)]
      linarith
    constructor
    · show s.rampStartSpeed + (1 - s.rampStartSpeed) *
        easeInOutCubic (min ((t - s.rampStartTime) / RAMP_DURATION) 1) = 1
      rw [hp1, easeInOutCubic_one, h0]
      ring
    · show (if 1 ≤ min ((t - s.rampStartTime) / RAMP_DURATION) 1 then false else true) = false
      rw [hp1]
      simp

/-- A RampingUp state freshly started from the initial state. -/
noncomputable def rampState : MState := { initState with rampUp := true }

/-- C5 witness: ticking `rampState` at 900 ms (past the 800 ms ramp) pins the
speed multiplier at exactly 1 and clears the ramp flag. -/
theorem rampUp_monotone_and_completes_witness :
    (calculateBallPosition sineCfg40 rampState 900).speedMultiplier = 1 ∧
    (calculateBallPosition sineCfg40 rampState 900).rampUp = false :=
  (rampUp_monotone_and_completes sineCfg40 rampState rfl rfl rfl rfl).2 900
    (by norm_num [rampState, initState, RAMP_DURATION])

lemma calc_vt_timestamp_eq (cfg : Config) (s : MState) (t1 t2 L : ℝ)
    (hL : s.lastTimestamp = some L) (hr : s.rampUp = false)
    (hdt : min (t1 - L) 50 = min (t2 - L) 50) :
    (calculateBallPosition cfg s t1).virtualTime =
      (calculateBallPosition cfg s t2).virtualTime := by
  unfold calculateBallPosition
  simp [hL, hr, hdt]

/-- C6 (amended): outside of RampingUp, the frame tick clamps its delta to
50 ms, so any raw delta of at least 50 ms advances virtual time exactly as a
50 ms delta does; the audio-interval tick clamps to 100 ms, so any raw delta
of at least 100 ms acts exactly like a 100 ms delta.  (During RampingUp the
claim fails: the recomputed speed multiplier depends on the absolute
timestamp, see the counterexample.) -/
theorem delta_clamp_absorbs_gaps (cfg : Config) (s : MState) (L : ℝ)
    (hL : s.lastTimestamp = some L) (hr : s.rampUp = false) :
    (∀ raw : ℝ, 50 ≤ raw →
      (calculateBallPosition cfg s (L + raw)).virtualTime =
        (calculateBallPosition cfg s (L + 50)).virtualTime) ∧
    (∀ (s' : MState) (hidden : Bool) (la raw : ℝ), 100 ≤ raw →
      audioLoopStep s' hidden (la + raw) la = audioLoopStep s' hidden (la + 100) la) := by
  constructor
  · intro raw hraw
    refine calc_vt_timestamp_eq cfg s (L + raw) (L + 50) L hL hr ?_
    rw [show L + raw - L = raw by ring, show L + 50 - L = (50 : ℝ) by ring,
      min_eq_right hraw, min_self]
  · intro s' hidden la raw hraw
    unfold audioLoopStep
    rw [show la + raw - la = raw by ring, show la + 100 - la = (100 : ℝ) by ring,
      min_eq_right hraw, min_self]

/-- C6 witness: from a steady state last ticked at 0, a 5000 ms raw frame
delta advances virtual time exactly as a 50 ms delta; likewise a 5000 ms raw
interval delta acts as 100 ms. -/
theorem delta_clamp_absorbs_gaps_witness :
    (calculateBallPosition sineCfg40 { initState with lastTimestamp := some 0 }
        (0 + 5000)).virtualTime =
      (calculateBallPosition sineCfg40 { initState with lastTimestamp := some 0 }
        (0 + 50)).virtualTime ∧
    audioLoopStep initState true (3 + 5000) 3 = audioLoopStep initState true (3 + 100) 3 := by
  constructor
  · exact (delta_clamp_absorbs_gaps sineCfg40 { initState with lastTimestamp := some 0 } 0
      rfl rfl).1 5000 (by norm_num)
  · exact (delta_clamp_absorbs_gaps sineCfg40 { initState with lastTimestamp := some 0 } 0
      rfl rfl).2 initState true 3 5000 (by norm_num)

/-- A RampingUp state (fresh ramp from zero speed) last ticked at 0. -/
noncomputable def rampClampEx : MState :=
  { initState with rampUp := true, lastTimestamp := some 0 }

/-- C6 counterexample: in RampingUp the claim is false.  From `rampClampEx`
a tick with raw delta 5000 ms advances virtual time by 50 (ramp progress
has reached 1, speed 1), while a tick with raw delta 50 ms advances it by
only 50/1024 (ramp progress 1/16), although both deltas clamp to 50 ms. -/
theorem delta_clamp_fails_when_ramping :
    (calculateBallPosition sineCfg40 rampClampEx 5000).virtualTime ≠
      (calculateBallPosition sineCfg40 rampClampEx 50).virtualTime := by
  have h1 := calc_ramp sineCfg40 rampClampEx 5000 50 1 1 50 rfl rfl rfl
    (by norm_num [rampClampEx, initState])
    (by norm_num [rampClampEx, initState, RAMP_DURATION])
    (by rw [easeInOutCubic_one]; norm_num [rampClampEx, initState])
    (by norm_num [rampClampEx, initState])
  have he : easeInOutCubic (1 / 16) = 1 / 1024 := by
    unfold easeInOutCubic
    rw [if_pos (by norm_num)]
    norm_num
  have h2 := calc_ramp sineCfg40 rampClampEx 50 50 (1 / 16) (1 / 1024) (50 / 1024) rfl rfl rfl
    (by norm_num [rampClampEx, initState])
    (by norm_num [rampClampEx, initState, RAMP_DURATION])
    (by rw [he]; norm_num [rampClampEx, initState])
    (by norm_num [rampClampEx, initState])
  rw [h1, h2]
  show (50 : ℝ) ≠ 50 / 1024
  norm_num

/-- C2 (amended): pausing while heading toward an edge enters WaitingForEdge
with `speedMultiplier` forced to 1 (cancelling any ramp); every waiting tick
keeps the speed multiplier unchanged, and it transitions to Decelerating
exactly when the magnitude of the sine value `sin(vt/period·2π)` reaches
0.99 — the edge test uses the sine formula regardless of the configured
motion type — capturing `decelStartPosition` as that signed sine value. -/
theorem pause_toward_edge_policy (cfg : Config) :
    (∀ s : MState, ¬isHeadingTowardZero cfg s →
      pressPause cfg s = { s with isPlaying := false
                                  waitingForEdge := true
                                  rampUp := false
                                  speedMultiplier := 1 }) ∧
    (∀ (s : MState) (t vt' : ℝ), s.waitingForEdge = true → s.isDecelerating = false →
      vt' = s.virtualTime + min (t - s.lastTimestamp.getD t) 50 * s.speedMultiplier →
      ¬((0 < s.ballPosition ∧ wavePos cfg vt' ≤ 0) ∨
        (s.ballPosition < 0 ∧ 0 ≤ wavePos cfg vt')) →
      (calculateBallPosition cfg s t).speedMultiplier = s.speedMultiplier ∧
      (calculateBallPosition cfg s t).virtualTime = vt' ∧
      ((calculateBallPosition cfg s t).isDecelerating = true ↔
        0.99 ≤ |Real.sin (vt' / period cfg * π * 2)|) ∧
      (0.99 ≤ |Real.sin (vt' / period cfg * π * 2)| →
        (calculateBallPosition cfg s t).waitingForEdge = false ∧
        (calculateBallPosition cfg s t).decelStartPosition =
          Real.sin (vt' / period cfg * π * 2))) := by
  constructor
  · intro s h
    unfold pressPause
    rw [if_neg h]
  · intro s t vt' hw hd hvt hnc
    by_cases h99 : 0.99 ≤ |Real.sin (vt' / period cfg * π * 2)|
    · rw [calc_waiting_capture cfg s t _ vt' hw rfl hvt h99 hnc]
      exact ⟨rfl, rfl, by simp [h99], fun _ => ⟨rfl, rfl⟩⟩
    · rw [calc_waiting_noCapture cfg s t _ vt' hw hd rfl hvt (not_le.mp h99)]
      exact ⟨rfl, rfl, by simp [hd, h99], fun h => absurd h h99⟩

/-- A WaitingForEdge state just before the sine wave reaches its +1 peak
(virtual time 350 of the 1500 ms sine period). -/
noncomputable def c2WitnessState : MState :=
  { isPlaying := false
    speedMultiplier := 1
    lastTimestamp := some 0
    virtualTime := 350
    rampUp := false
    rampStartTime := 0
    rampStartSpeed := 0
    isDecelerating := false
    decelStartPosition := 0
    waitingForEdge := true
    ballPosition := 0.5 }

/-- C2 witness: the waiting tick from `c2WitnessState` at timestamp 25
advances virtual time to 375 (the sine peak, value 1 ≥ 0.99), keeps the
speed multiplier, leaves WaitingForEdge and captures the sine value. -/
theorem pause_toward_edge_policy_witness :
    (calculateBallPosition sineCfg40 c2WitnessState 25).speedMultiplier =
      c2WitnessState.speedMultiplier ∧
    (calculateBallPosition sineCfg40 c2WitnessState 25).virtualTime = 375 ∧
    ((calculateBallPosition sineCfg40 c2WitnessState 25).isDecelerating = true ↔
      0.99 ≤ |Real.sin (375 / period sineCfg40 * π * 2)|) ∧
    (0.99 ≤ |Real.sin (375 / period sineCfg40 * π * 2)| →
      (calculateBallPosition sineCfg40 c2WitnessState 25).waitingForEdge = false ∧
      (calculateBallPosition sineCfg40 c2WitnessState 25).decelStartPosition =
        Real.sin (375 / period sineCfg40 * π * 2)) :=
  (pause_toward_edge_policy sineCfg40).2 c2WitnessState 25 375 rfl rfl
    (by norm_num [c2WitnessState])
    (by
      rw [wavePos_sineCfg40, show (375 : ℝ) / 1500 * π * 2 = π / 2 by ring,
        Real.sin_pi_div_two]
      rintro (⟨-, h⟩ | ⟨h, -⟩) <;> norm_num [c2WitnessState] at h)

lemma cycleProgress_fastTri {vt : ℝ} (h0 : 0 ≤ vt) (h1 : vt < 150) :
    jsRem (jsRem vt (period fastTri) + period fastTri) (period fastTri) / period fastTri =
      vt / 150 := by
  rw [period_fastTri, jsRem_of_nonneg_of_lt h0 h1,
    jsRem_of_ge_of_lt (by norm_num) (by linarith) (by linarith)]
  ring_nf

lemma wavePos_fastTri_first {vt : ℝ} (h0 : 0 ≤ vt) (h1 : vt < 37.5) :
    wavePos fastTri vt = vt / 150 * 4 := by
  have hcp := cycleProgress_fastTri h0 (by linarith : vt < 150)
  show (if jsRem (jsRem vt (period fastTri) + period fastTri) (period fastTri) /
      period fastTri < 0.25 then
        jsRem (jsRem vt (period fastTri) + period fastTri) (period fastTri) /
          period fastTri * 4
      else if jsRem (jsRem vt (period fastTri) + period fastTri) (period fastTri) /
          period fastTri < 0.75 then
        1 - (jsRem (jsRem vt (period fastTri) + period fastTri) (period fastTri) /
          period fastTri - 0.25) * 4
      else -1 + (jsRem (jsRem vt (period fastTri) + period fastTri) (period fastTri) /
          period fastTri - 0.75) * 4) = vt / 150 * 4
  rw [hcp, if_pos (by norm_num; linarith)]

lemma vel_fastTri_first {vt : ℝ} (h0 : 0 ≤ vt) (h1 : vt < 37.5) :
    getVelocityDirection fastTri vt = 1 := by
  have hcp := cycleProgress_fastTri h0 (by linarith : vt < 150)
  show (if jsRem (jsRem vt (period fastTri) + period fastTri) (period fastTri) /
      period fastTri < 0.25 ∨
      0.75 ≤ jsRem (jsRem vt (period fastTri) + period fastTri) (period fastTri) /
        period fastTri then (1 : ℝ) else -1) = 1
  rw [hcp, if_pos (Or.inl (by norm_num; linarith))]

/-- A Steady playing state with triangle motion at 400 cycles/minute
(period 150 ms), ball at +0.2 on the rising segment (heading to the edge). -/
noncomputable def triSteady : MState :=
  { isPlaying := true
    speedMultiplier := 1
    lastTimestamp := some 100
    virtualTime := 7.5
    rampUp := false
    rampStartTime := 0
    rampStartSpeed := 0
    isDecelerating := false
    decelStartPosition := 0
    waitingForEdge := false
    ballPosition := 0.2 }

/-- The state after pressing pause on `triSteady` (WaitingForEdge) and then
ticking once at timestamp 127.75 (virtual time reaches 35.25). -/
noncomputable def triCaptured : MState :=
  calculateBallPosition fastTri (pressPause fastTri triSteady) 127.75

/-- C2 counterexample: with the Triangle motion type the waiting state
transitions to Decelerating on a tick where the triangle position is only
0.94 (< 0.99) — the edge test uses the sine waveform, not the triangle
position — and the captured `decelStartPosition` (the sine value
`cos(3π/100) ≥ 0.99`) differs from `|position|`. -/
theorem pause_toward_edge_policy_counterexample :
    triCaptured.isDecelerating = true ∧ |triCaptured.ballPosition| < 0.99 ∧
      triCaptured.decelStartPosition ≠ |triCaptured.ballPosition| := by
  have hvel : getVelocityDirection fastTri triSteady.virtualTime = 1 := by
    show getVelocityDirection fastTri 7.5 = 1
    exact vel_fastTri_first (by norm_num) (by norm_num)
  have hnp : ¬isHeadingTowardZero fastTri triSteady := by
    unfold isHeadingTowardZero
    rw [hvel]
    rintro (⟨-, h⟩ | ⟨h, -⟩)
    · norm_num at h
    · revert h
      show ¬((0.2 : ℝ) < 0)
      norm_num
  have hW : pressPause fastTri triSteady =
      { triSteady with isPlaying := false
                       waitingForEdge := true
                       rampUp := false
                       speedMultiplier := 1 } := by
    unfold pressPause
    rw [if_neg hnp]
  have hsin : Real.sin ((35.25 : ℝ) / period fastTri * π * 2) = Real.cos (3 * π / 100) := by
    rw [period_fastTri, show (35.25 : ℝ) / 150 * π * 2 = π / 2 - 3 * π / 100 by ring,
      Real.sin_pi_div_two_sub]
  have hpos : wavePos fastTri (35.25 : ℝ) = 0.94 := by
    rw [wavePos_fastTri_first (by norm_num) (by norm_num)]
    norm_num
  have h99 : (0.99 : ℝ) ≤ |Real.sin ((35.25 : ℝ) / period fastTri * π * 2)| := by
    rw [hsin, abs_of_nonneg (by linarith [cos_3pi100_ge])]
    exact cos_3pi100_ge
  have hcap : triCaptured =
      { triSteady with isPlaying := false
                       waitingForEdge := false
                       rampUp := false
                       speedMultiplier := 1
                       isDecelerating := true
                       decelStartPosition := Real.sin ((35.25 : ℝ) / period fastTri * π * 2)
                       virtualTime := 35.25
                       ballPosition := wavePos fastTri (35.25 : ℝ)
                       lastTimestamp := some 127.75 } := by
    show calculateBallPosition fastTri (pressPause fastTri triSteady) 127.75 = _
    rw [hW]
    rw [calc_waiting_capture fastTri _ 127.75 _ 35.25 rfl rfl (by norm_num [triSteady]) h99
      (by
        rw [hpos]
        rintro (⟨-, h⟩ | ⟨h, -⟩)
        · norm_num at h
        · revert h
          show ¬((triSteady.ballPosition : ℝ) < 0)
          norm_num [triSteady])]
  rw [hcap]
  refine ⟨rfl, ?_, ?_⟩
  · show |wavePos fastTri (35.25 : ℝ)| < 0.99
    rw [hpos, abs_of_nonneg (by norm_num)]
    norm_num
  · show Real.sin ((35.25 : ℝ) / period fastTri * π * 2) ≠ |wavePos fastTri (35.25 : ℝ)|
    rw [hsin, hpos, abs_of_nonneg (by norm_num)]
    intro h
    have := cos_3pi100_ge
    rw [h] at this
    norm_num at this

lemma calc_speed_cases (cfg : Config) (s : MState) (t : ℝ) :
    (calculateBallPosition cfg s t).rampStartSpeed = s.rampStartSpeed ∧
    (calculateBallPosition cfg s t).rampStartTime = s.rampStartTime ∧
    ((calculateBallPosition cfg s t).rampUp = true → s.rampUp = true) ∧
    ((calculateBallPosition cfg s t).speedMultiplier = s.speedMultiplier ∨
     (calculateBallPosition cfg s t).speedMultiplier = 0 ∨
     0.08 ≤ (calculateBallPosition cfg s t).speedMultiplier ∨
     ((calculateBallPosition cfg s t).speedMultiplier =
        s.rampStartSpeed + (1 - s.rampStartSpeed) *
          easeInOutCubic (min ((t - s.rampStartTime) / RAMP_DURATION) 1) ∧
       s.rampUp = true)) := by
  unfold calculateBallPosition
  simp only []
  split_ifs <;> simp_all

lemma reach_invariant {s : MState} {t : ℝ} (h : Reach s t) :
    0 ≤ s.speedMultiplier ∧ 0 ≤ s.rampStartSpeed ∧
      (s.rampUp = true → s.rampStartTime ≤ t) := by
  induction h with
  | init => exact ⟨le_refl 0, le_refl 0, by simp [initState]⟩
  | play s t t' hr hp hle ih =>
      exact ⟨ih.1, ih.1, fun _ => le_refl t'⟩
  | pause cfg s t t' hr hp hle ih =>
      unfold pressPause
      split_ifs with hh
      · exact ⟨ih.1, ih.2.1, fun h => le_trans (ih.2.2 h) hle⟩
      · exact ⟨by norm_num, ih.2.1, by simp⟩
  | tick cfg s t t' hr hle ih =>
      obtain ⟨hrss, hrst, hru, hsm⟩ := calc_speed_cases cfg s t'
      refine ⟨?_, hrss ▸ ih.2.1, ?_⟩
      · rcases hsm with h | h | h | ⟨h, hup⟩
        · rw [h]; exact ih.1
        · rw [h]
        · linarith
        · rw [h]
          have hrt : s.rampStartTime ≤ t' := le_trans (ih.2.2 hup) hle
          have hp0 : 0 ≤ min ((t' - s.rampStartTime) / RAMP_DURATION) 1 := by
            have h800 : (0 : ℝ) < RAMP_DURATION := by norm_num [RAMP_DURATION]
            have : t ≤ t' := hle
            refine le_min (div_nonneg ?_ h800.le) (by norm_num)
            have := ih.2.2 hup
            linarith
          have hp1 : min ((t' - s.rampStartTime) / RAMP_DURATION) 1 ≤ 1 := min_le_right _ _
          have he0 := easeInOutCubic_nonneg hp0
          have he1 := easeInOutCubic_le_one hp1
          nlinarith [ih.2.1]
      · intro hup
        rw [hrst]
        exact le_trans (ih.2.2 (hru hup)) hle
  | audioTick s hidden t t' la hr hle ih =>
      unfold audioLoopStep
      split_ifs with hh
      · exact ⟨ih.1, ih.2.1, fun h => le_trans (ih.2.2 h) hle⟩
      · exact ⟨ih.1, ih.2.1, fun h => le_trans (ih.2.2 h) hle⟩

/-- C3 (amended): in every state reachable from the initial state by play
presses, pause presses, frame ticks and audio ticks with nondecreasing
timestamps, `speedMultiplier` is non-negative.  (The claimed upper bound of 1
is false: after a deceleration captured at the 0.99 edge threshold the
recomputed `max(0.08, sqrt(|position|/|decelStartPosition|))` can exceed 1 —
see the counterexample.) -/
theorem reach_speedMultiplier_nonneg {s : MState} {t : ℝ} (h : Reach s t) :
    0 ≤ s.speedMultiplier :=
  (reach_invariant h).1

/-- C3 witness: non-negativity of the speed multiplier at the initial state. -/
theorem reach_speedMultiplier_nonneg_witness : 0 ≤ initState.speedMultiplier :=
  reach_speedMultiplier_nonneg Reach.init

/-- The WaitingForEdge state obtained by pressing play and immediately pause
at the ball's center position. -/
noncomputable def waitB : MState :=
  { isPlaying := false
    speedMultiplier := 1
    lastTimestamp := none
    virtualTime := 0
    rampUp := false
    rampStartTime := 0
    rampStartSpeed := 0
    isDecelerating := false
    decelStartPosition := 0
    waitingForEdge := true
    ballPosition := 0 }

lemma wavePos_fastSine_zero : wavePos fastSine 0 = 0 := by
  rw [wavePos_fastSine]
  norm_num

lemma press_play_pause_eq_waitB :
    pressPause fastSine (pressPlay initState 0) = waitB := by
  unfold pressPause
  rw [if_neg]
  · rfl
  · rintro (⟨h, -⟩ | ⟨h, -⟩)
    · revert h
      show ¬((0 : ℝ) < (pressPlay initState 0).ballPosition)
      norm_num [pressPlay, initState]
    · revert h
      show ¬((pressPlay initState 0).ballPosition < 0)
      norm_num [pressPlay, initState]

lemma phase_capture_eq : (37.5 - 7.5 / π) / 150 * π * 2 = π / 2 - 1 / 10 := by
  have hπ : π ≠ 0 := Real.pi_ne_zero
  field_simp
  ring

lemma sin_capture_eq :
    Real.sin ((37.5 - 7.5 / π) / period fastSine * π * 2) = Real.cos (1 / 10) := by
  rw [period_fastSine, phase_capture_eq, Real.sin_pi_div_two_sub]

lemma wavePos_capture_eq : wavePos fastSine (37.5 - 7.5 / π) = Real.cos (1 / 10) := by
  rw [wavePos_fastSine, phase_capture_eq, Real.sin_pi_div_two_sub]

lemma wavePos_peak_eq : wavePos fastSine 37.5 = 1 := by
  rw [wavePos_fastSine, show (37.5 : ℝ) / 150 * π * 2 = π / 2 by ring, Real.sin_pi_div_two]

/-- After `waitB`, tick at 10 (zero delta since `lastTimestamp` was null). -/
noncomputable def waitB1 : MState :=
  { waitB with virtualTime := 0
               ballPosition := wavePos fastSine 0
               lastTimestamp := some 10 }

/-- The state captured at the 0.99 sine edge: virtual time `37.5 - 7.5/π`
(phase `π/2 - 1/10`, position `cos(1/10) ≈ 0.995`). -/
noncomputable def capturedB : MState :=
  { waitB1 with virtualTime := 37.5 - 7.5 / π
                waitingForEdge := false
                isDecelerating := true
                decelStartPosition := Real.sin ((37.5 - 7.5 / π) / period fastSine * π * 2)
                ballPosition := wavePos fastSine (37.5 - 7.5 / π)
                lastTimestamp := some (47.5 - 7.5 / π) }

/-- One decelerating tick later the ball sits exactly on the sine peak. -/
noncomputable def peakB : MState :=
  { capturedB with speedMultiplier := 1
                   virtualTime := 37.5
                   ballPosition := wavePos fastSine 37.5
                   lastTimestamp := some 47.5 }

lemma tick_waitB_eq : calculateBallPosition fastSine waitB 10 = waitB1 := by
  rw [calc_waiting_noCapture fastSine waitB 10 0 0 rfl rfl
    (by norm_num [waitB]) (by norm_num [waitB])
    (by
      rw [period_fastSine]
      norm_num)]
  rfl

lemma tick_waitB1_eq :
    calculateBallPosition fastSine waitB1 (47.5 - 7.5 / π) = capturedB := by
  have hcos09 := cos_tenth_bounds.1
  have hcospos : 0 < Real.cos (1 / 10) := by linarith
  have h75 : (0 : ℝ) < 7.5 / π := by positivity
  have h75u : (7.5 : ℝ) / π ≤ 2.5 := by
    rw [div_le_iff₀ Real.pi_pos]
    nlinarith [Real.pi_gt_three]
  have hdt : (37.5 - 7.5 / π : ℝ) =
      min ((47.5 - 7.5 / π) - waitB1.lastTimestamp.getD (47.5 - 7.5 / π)) 50 := by
    rw [show waitB1.lastTimestamp = some 10 from rfl]
    simp only [Option.getD_some]
    rw [show (47.5 - 7.5 / π : ℝ) - 10 = 37.5 - 7.5 / π by ring]
    rw [min_eq_left (by linarith)]
  have hvt : (37.5 - 7.5 / π : ℝ) =
      waitB1.virtualTime + (37.5 - 7.5 / π) * waitB1.speedMultiplier := by
    rw [show waitB1.virtualTime = 0 from rfl, show waitB1.speedMultiplier = 1 from rfl]
    ring
  have h99 : (0.99 : ℝ) ≤ |Real.sin ((37.5 - 7.5 / π) / period fastSine * π * 2)| := by
    rw [sin_capture_eq, abs_of_pos hcospos]
    exact hcos09
  have hnc : ¬((0 < waitB1.ballPosition ∧ wavePos fastSine (37.5 - 7.5 / π) ≤ 0) ∨
      (waitB1.ballPosition < 0 ∧ 0 ≤ wavePos fastSine (37.5 - 7.5 / π))) := by
    rw [show waitB1.ballPosition = wavePos fastSine 0 from rfl, wavePos_fastSine_zero]
    rintro (⟨h, -⟩ | ⟨h, -⟩) <;> norm_num at h
  rw [calc_waiting_capture fastSine waitB1 (47.5 - 7.5 / π) (37.5 - 7.5 / π)
    (37.5 - 7.5 / π) rfl hdt hvt h99 hnc]
  rfl

lemma tick_capturedB_eq : calculateBallPosition fastSine capturedB 47.5 = peakB := by
  have hcos09 := cos_tenth_bounds.1
  have hcospos : 0 < Real.cos (1 / 10) := by linarith
  have h75 : (0 : ℝ) < 7.5 / π := by positivity
  have h75u : (7.5 : ℝ) / π ≤ 2.5 := by
    rw [div_le_iff₀ Real.pi_pos]
    nlinarith [Real.pi_gt_three]
  have hdsp : capturedB.decelStartPosition = Real.cos (1 / 10) := sin_capture_eq
  have hbp : capturedB.ballPosition = Real.cos (1 / 10) := wavePos_capture_eq
  have hbig : (0.01 : ℝ) < |capturedB.decelStartPosition| := by
    rw [hdsp, abs_of_pos hcospos]
    linarith
  have hdt : (7.5 / π : ℝ) =
      min (47.5 - capturedB.lastTimestamp.getD 47.5) 50 := by
    rw [show capturedB.lastTimestamp = some (47.5 - 7.5 / π) from rfl]
    simp only [Option.getD_some]
    rw [show (47.5 : ℝ) - (47.5 - 7.5 / π) = 7.5 / π by ring]
    rw [min_eq_left (by linarith)]
  have hsm : (1 : ℝ) =
      max 0.08 (Real.sqrt (|capturedB.ballPosition| / |capturedB.decelStartPosition|)) := by
    rw [hbp, hdsp, abs_of_pos hcospos, div_self (ne_of_gt hcospos), Real.sqrt_one]
    rw [max_eq_right (by norm_num)]
  have hvt : (37.5 : ℝ) = capturedB.virtualTime + 7.5 / π * 1 := by
    rw [show capturedB.virtualTime = 37.5 - 7.5 / π from rfl]
    ring
  have hnc : ¬((0 < capturedB.ballPosition ∧ wavePos fastSine 37.5 ≤ 0) ∨
      (capturedB.ballPosition < 0 ∧ 0 ≤ wavePos fastSine 37.5)) := by
    rw [hbp, wavePos_peak_eq]
    rintro (⟨-, h⟩ | ⟨h, -⟩) <;> linarith
  rw [calc_decel fastSine capturedB 47.5 (7.5 / π) 1 37.5 rfl rfl hbig hdt hsm hvt hnc]
  rfl

/-- The state one further decelerating tick after `peakB`: the recomputed
speed multiplier is `sqrt(1 / cos(1/10)) > 1`. -/
noncomputable def overOneB : MState := calculateBallPosition fastSine peakB 48.5

lemma tick_peakB_sm :
    overOneB.speedMultiplier = Real.sqrt (1 / Real.cos (1 / 10)) := by
  have hcos09 := cos_tenth_bounds.1
  have hcospos : 0 < Real.cos (1 / 10) := by linarith
  have hdsp : peakB.decelStartPosition = Real.cos (1 / 10) := sin_capture_eq
  have hbp : peakB.ballPosition = 1 := wavePos_peak_eq
  have hbig : (0.01 : ℝ) < |peakB.decelStartPosition| := by
    rw [hdsp, abs_of_pos hcospos]
    linarith
  have hdt : (1 : ℝ) = min (48.5 - peakB.lastTimestamp.getD 48.5) 50 := by
    rw [show peakB.lastTimestamp = some 47.5 from rfl]
    simp only [Option.getD_some]
    norm_num
  have hsm : Real.sqrt (1 / Real.cos (1 / 10)) =
      max 0.08 (Real.sqrt (|peakB.ballPosition| / |peakB.decelStartPosition|)) := by
    rw [hbp, hdsp, abs_of_pos hcospos, abs_one]
    rw [max_eq_right]
    have h1 : (1 : ℝ) ≤ 1 / Real.cos (1 / 10) := by
      rw [le_div_iff₀ hcospos]
      linarith [cos_tenth_bounds.2]
    calc (0.08 : ℝ) ≤ 1 := by norm_num
      _ = Real.sqrt 1 := Real.sqrt_one.symm
      _ ≤ Real.sqrt (1 / Real.cos (1 / 10)) := Real.sqrt_le_sqrt h1
  have hsm_ub : Real.sqrt (1 / Real.cos (1 / 10)) ≤ 1.1 := by
    refine Real.sqrt_le_iff.mpr ⟨by norm_num, ?_⟩
    rw [div_le_iff₀ hcospos]
    nlinarith
  have hsm_lb : (0 : ℝ) ≤ Real.sqrt (1 / Real.cos (1 / 10)) := Real.sqrt_nonneg _
  have hnc : ¬((0 < peakB.ballPosition ∧
      wavePos fastSine (37.5 + 1 * Real.sqrt (1 / Real.cos (1 / 10))) ≤ 0) ∨
      (peakB.ballPosition < 0 ∧
        0 ≤ wavePos fastSine (37.5 + 1 * Real.sqrt (1 / Real.cos (1 / 10))))) := by
    have hpos : 0 < wavePos fastSine (37.5 + 1 * Real.sqrt (1 / Real.cos (1 / 10))) := by
      rw [wavePos_fastSine]
      refine sin_phase150_pos (by linarith) (by linarith)
    rw [hbp]
    rintro (⟨-, h⟩ | ⟨h, -⟩) <;> linarith
  have hvt : (37.5 : ℝ) + 1 * Real.sqrt (1 / Real.cos (1 / 10)) =
      peakB.virtualTime + 1 * Real.sqrt (1 / Real.cos (1 / 10)) := by
    rw [show peakB.virtualTime = (37.5 : ℝ) from rfl]
  show (calculateBallPosition fastSine peakB 48.5).speedMultiplier = _
  rw [calc_decel fastSine peakB 48.5 1 (Real.sqrt (1 / Real.cos (1 / 10)))
    (37.5 + 1 * Real.sqrt (1 / Real.cos (1 / 10))) rfl rfl hbig hdt hsm hvt hnc]

/-- C3 counterexample: a state reachable from the initial state (play at the
center, pause toward the edge, a capture at the 0.99 sine threshold, then two
decelerating ticks across the peak) has `speedMultiplier = sqrt(1/cos(1/10))`,
which is strictly greater than 1 — the claimed bound by 1 is violated. -/
theorem reach_speedMultiplier_gt_one :
    Reach overOneB 48.5 ∧ 1 < overOneB.speedMultiplier := by
  have hcos09 := cos_tenth_bounds.1
  have hcoslt := cos_tenth_bounds.2
  have hcospos : 0 < Real.cos (1 / 10) := by linarith
  have h75 : (0 : ℝ) < 7.5 / π := by positivity
  have h75u : (7.5 : ℝ) / π ≤ 2.5 := by
    rw [div_le_iff₀ Real.pi_pos]
    nlinarith [Real.pi_gt_three]
  constructor
  · have r1 : Reach (pressPlay initState 0) 0 :=
      Reach.play initState 0 0 Reach.init rfl le_rfl
    have r2 : Reach (pressPause fastSine (pressPlay initState 0)) 0 :=
      Reach.pause fastSine (pressPlay initState 0) 0 0 r1 rfl le_rfl
    rw [press_play_pause_eq_waitB] at r2
    have r3 : Reach (calculateBallPosition fastSine waitB 10) 10 :=
      Reach.tick fastSine waitB 0 10 r2 (by norm_num)
    rw [tick_waitB_eq] at r3
    have r4 : Reach (calculateBallPosition fastSine waitB1 (47.5 - 7.5 / π))
        (47.5 - 7.5 / π) :=
      Reach.tick fastSine waitB1 10 (47.5 - 7.5 / π) r3 (by linarith)
    rw [tick_waitB1_eq] at r4
    have r5 : Reach (calculateBallPosition fastSine capturedB 47.5) 47.5 :=
      Reach.tick fastSine capturedB (47.5 - 7.5 / π) 47.5 r4 (by linarith)
    rw [tick_capturedB_eq] at r5
    exact Reach.tick fastSine peakB 47.5 48.5 r5 (by norm_num)
  · rw [tick_peakB_sm]
    have h1 : (1 : ℝ) < 1 / Real.cos (1 / 10) := by
      rw [lt_div_iff₀ hcospos]
      linarith
    calc (1 : ℝ) = Real.sqrt 1 := Real.sqrt_one.symm
      _ < Real.sqrt (1 / Real.cos (1 / 10)) := Real.sqrt_lt_sqrt (by norm_num) h1

/-- C7: on a tick with music present and playing, the playback rate is set to
the post-tick `speedMultiplier`, and the tracked read offset advances by the
real audio-clock delta times the rate that was in effect during that
interval, modulo the buffer duration. -/
theorem music_rate_and_offset_tracking (cfg : Config) (s : MState) (m : MusicState)
    (timestamp audioNow d : ℝ)
    (hsrc : m.hasSource = true) (hplay : m.musicIsPlaying = true)
    (hdur : m.musicBufferDuration = some d) (hlu : m.lastMusicUpdateTime ≠ 0) :
    (tickWithMusic cfg s m timestamp audioNow).2.playbackRate =
      (calculateBallPosition cfg s timestamp).speedMultiplier ∧
    (tickWithMusic cfg s m timestamp audioNow).2.musicPausedAt =
      jsRem (m.musicPausedAt + (audioNow - m.lastMusicUpdateTime) * m.playbackRate) d := by
  unfold tickWithMusic updateMusicPlaybackRate
  simp [hsrc, hplay, hdur, hlu]

/-- A playing music state: buffer of duration 10 s, offset 3, last update at
audio time 5, playback rate 1. -/
def musicW : MusicState :=
  { hasSource := true
    musicIsPlaying := true
    musicBufferDuration := some 10
    musicPausedAt := 3
    lastMusicUpdateTime := 5
    playbackRate := 1 }

/-- C7 witness: the tracking theorem evaluated on `musicW` at audio time 7. -/
theorem music_rate_and_offset_tracking_witness :
    (tickWithMusic sineCfg40 initState musicW 0 7).2.playbackRate =
      (calculateBallPosition sineCfg40 initState 0).speedMultiplier ∧
    (tickWithMusic sineCfg40 initState musicW 0 7).2.musicPausedAt =
      jsRem (3 + (7 - 5) * 1) 10 :=
  music_rate_and_offset_tracking sineCfg40 initState musicW 0 7 10 rfl rfl rfl
    (by norm_num [musicW])

/-- C9: the reverb worker response handler ignores the response id and the
current request id, and always installs the received impulse when the audio
context and convolver exist — so the last response to arrive wins, stale or
not. -/
theorem reverb_last_response_wins :
    (∀ (st : ReverbMain) (msg : ReverbMsg) (j : ℕ),
      onReverbWorkerMessage st { msg with id := j } = onReverbWorkerMessage st msg) ∧
    (∀ (st : ReverbMain) (k : ℕ) (msg : ReverbMsg),
      (onReverbWorkerMessage { st with reverbRequestId := k } msg).convolverBuffer =
        (onReverbWorkerMessage st msg).convolverBuffer) ∧
    (∀ (st : ReverbMain) (m1 m2 : ReverbMsg),
      st.hasAudioContext = true → st.hasConvolver = true →
      (onReverbWorkerMessage (onReverbWorkerMessage st m1) m2).convolverBuffer =
        some ⟨m2.channel0, m2.channel1, m2.length, m2.sampleRate⟩) := by
  refine ⟨?_, ?_, ?_⟩
  · intro st msg j
    unfold onReverbWorkerMessage
    split_ifs <;> rfl
  · intro st k msg
    unfold onReverbWorkerMessage
    split_ifs <;> simp_all
  · intro st m1 m2 h1 h2
    simp [onReverbWorkerMessage, h1, h2]

/-- Main-thread audio state with context and convolver present. -/
def reverbSt0 : ReverbMain :=
  { hasAudioContext := true
    hasConvolver := true
    convolverBuffer := none
    reverbRequestId := 5 }

/-- A first worker response. -/
def reverbMsg1 : ReverbMsg := ⟨1, [0.5], [0.25], 1, 44100⟩

/-- A second (later-arriving) worker response. -/
def reverbMsg2 : ReverbMsg := ⟨2, [], [], 0, 48000⟩

/-- C9 witness: applying two responses in order leaves the second one's
impulse on the convolver. -/
theorem reverb_last_response_wins_witness :
    (onReverbWorkerMessage (onReverbWorkerMessage reverbSt0 reverbMsg1)
      reverbMsg2).convolverBuffer =
      some ⟨reverbMsg2.channel0, reverbMsg2.channel1, reverbMsg2.length,
        reverbMsg2.sampleRate⟩ :=
  reverb_last_response_wins.2.2 reverbSt0 reverbMsg1 reverbMsg2 rfl rfl

lemma reverbChannel_length (p : Preset) (decay sampleRate stereoOffset : ℝ)
    (len : ℕ) (noiseMain noiseEarly : ℕ → ℝ) (n : ℕ) :
    (reverbChannel p decay sampleRate stereoOffset len noiseMain noiseEarly n).length = n := by
  induction n with
  | zero => rfl
  | succ k ih => simp [reverbChannel, ih]

lemma durationMult_pos (type : String) : 0 < (PRESETS type).durationMult := by
  unfold PRESETS roomPreset
  split_ifs <;> norm_num

lemma fallbackPresetDuration_eq (type : String) (decay : ℝ) :
    fallbackPresetDuration type decay = decay * (PRESETS type).durationMult := by
  unfold fallbackPresetDuration PRESETS roomPreset
  split_ifs <;> norm_num

/-- C10: the generated reverb impulse has exactly two channels, each with
`floor(min(durationMult·decay, 6) · sampleRate)` samples, where the duration
multiplier is 0.7 / 1.2 / 0.9 / 1.5 for room / hall / plate / cathedral (an
unrecognized type falls back to the room preset); the synchronous
main-thread fallback computes the same sample count for the same inputs. -/
theorem reverb_impulse_length_spec (sampleRate : ℝ) (type : String) (decay : ℝ)
    (noiseA noiseB : ℕ → ℕ → ℝ) (hs : 0 ≤ sampleRate) (hd : 0 ≤ decay) :
    (generateImpulse sampleRate type decay noiseA noiseB).channels.length = 2 ∧
    (∀ c ∈ (generateImpulse sampleRate type decay noiseA noiseB).channels,
      (c.length : ℤ) = ⌊min ((PRESETS type).durationMult * decay) 6 * sampleRate⌋) ∧
    fallbackImpulseLength sampleRate type decay =
      ⌊min ((PRESETS type).durationMult * decay) 6 * sampleRate⌋ ∧
    (PRESETS "room").durationMult = 0.7 ∧ (PRESETS "hall").durationMult = 1.2 ∧
    (PRESETS "plate").durationMult = 0.9 ∧ (PRESETS "cathedral").durationMult = 1.5 ∧
    (∀ t : String, t ≠ "room" → t ≠ "hall" → t ≠ "plate" → t ≠ "cathedral" →
      PRESETS t = roomPreset) := by
  have hdur0 : 0 ≤ min ((PRESETS type).durationMult * decay) 6 :=
    le_min (mul_nonneg (durationMult_pos type).le hd) (by norm_num)
  have hfl0 : 0 ≤ ⌊sampleRate * min ((PRESETS type).durationMult * decay) 6⌋ :=
    Int.floor_nonneg.mpr (mul_nonneg hs hdur0)
  have hcomm : ⌊sampleRate * min ((PRESETS type).durationMult * decay) 6⌋ =
      ⌊min ((PRESETS type).durationMult * decay) 6 * sampleRate⌋ := by
    rw [mul_comm]
  refine ⟨rfl, ?_, ?_, by simp [PRESETS, roomPreset], by simp [PRESETS],
    by simp [PRESETS], by simp [PRESETS], ?_⟩
  · intro c hc
    have hlen : c.length =
        (⌊sampleRate * min ((PRESETS type).durationMult * decay) 6⌋).toNat := by
      simp only [generateImpulse, List.mem_cons, List.mem_singleton, List.not_mem_nil,
        or_false] at hc
      rcases hc with h | h <;> rw [h, reverbChannel_length]
    rw [hlen, Int.toNat_of_nonneg hfl0, hcomm]
  · unfold fallbackImpulseLength
    rw [fallbackPresetDuration_eq, mul_comm decay, ← hcomm, mul_comm]
  · intro t h1 h2 h3 h4
    unfold PRESETS
    rw [if_neg h1, if_neg h2, if_neg h3, if_neg h4]

/-- C10 witness: sample rate 10, type hall, decay 2 — each of the two
channels holds `floor(min(1.2·2, 6)·10) = 24` samples, in both the worker
and the fallback. -/
theorem reverb_impulse_length_spec_witness :
    (generateImpulse 10 "hall" 2 (fun _ _ => 0) (fun _ _ => 0)).channels.length = 2 ∧
    (generateImpulse 10 "hall" 2 (fun _ _ => 0) (fun _ _ => 0)).channels.map
      (fun c => (c.length : ℤ)) = [24, 24] ∧
    fallbackImpulseLength 10 "hall" 2 = 24 := by
  have h := reverb_impulse_length_spec 10 "hall" 2 (fun _ _ => 0) (fun _ _ => 0)
    (by norm_num) (by norm_num)
  have h24 : ⌊min ((PRESETS "hall").durationMult * 2) 6 * (10 : ℝ)⌋ = 24 := by
    rw [show (PRESETS "hall").durationMult = 1.2 from by simp [PRESETS]]
    rw [show min ((1.2 : ℝ) * 2) 6 * 10 = 24 by norm_num]
    rw [show (24 : ℝ) = ((24 : ℤ) : ℝ) by norm_num, Int.floor_intCast]
  refine ⟨h.1, ?_, h.2.2.1.trans h24⟩
  have hmem : ∀ c ∈ (generateImpulse 10 "hall" 2 (fun _ _ => 0)
      (fun _ _ => 0)).channels, (c.length : ℤ) = 24 :=
    fun c hc => (h.2.1 c hc).trans h24
  show List.map _ [_, _] = _
  rw [List.map_cons, List.map_cons, List.map_nil]
  rw [hmem _ (by simp [generateImpulse]), hmem _ (by simp [generateImpulse])]
